import Mathlib

/-!
# Verification of the debate-arena orchestrator core

Shallow embedding of `src/backend/models.py`, `src/backend/storage.py` and
`src/backend/orchestrator.py` (the `DebateOrchestrator` engine), together with
proofs about the engine's behaviour.

Modelling conventions:
* Python mutable state (the in-memory store entry for one run, the per-run
  `_progress` and `_context` side tables, the list of final records) is
  threaded explicitly through an `OrchState` record.  The claims are all about
  a single run, so the store is projected to that run's entry; the run entry
  itself is never deleted by the engine (`InMemoryStore.update_run` is an
  upsert and the orchestrator never calls `delete_run`).
* Python exceptions are modelled with `Except String`: a state-mutating
  operation that can raise returns `OrchState × Except String α`, and the
  returned state contains exactly the mutations performed before the raise.
* The remote chat client is an oracle `Chat`; a `.error` result models the
  client call raising an exception.  The completion order of the concurrent
  per-participant calls of one phase is an explicit `order` parameter (in the
  source, outputs are appended in `asyncio.as_completed` order).
* Machine strings are Lean `String`s; Python `str.strip`, `str.splitlines`,
  `str.lower` and the vote regex are modelled character-exactly over the ASCII
  range (whitespace = `" \t\n\x0b\x0c\r"`, line breaks = `"\n\x0b\x0c\r"`),
  which covers every string the claims mention.
* `uuid` ids and `created_at` timestamps are irrelevant to control flow and
  are modelled as fixed strings / omitted.
-/

deriving instance DecidableEq for Except

/-! ## Data model (`models.py`) -/

/-- `PhaseRole` enum from `models.py`. -/
inductive PhaseRole where
  | reaction
  | argument_for
  | argument_against
  | vote
  | summary
  | custom
deriving DecidableEq, Repr

/-- `VisibleTo` enum from `models.py`. -/
inductive VisibleTo where
  | all_participants
  | moderator_only
  | audience_only
deriving DecidableEq, Repr

/-- `Participant` model from `models.py`. -/
structure Participant where
  id : String
  display_name : String
  model_id : String
  persona_prompt : String
  color : Option String := none
  icon : Option String := none
deriving DecidableEq, Repr

/-- `PhaseSpec` model from `models.py`. -/
structure PhaseSpec where
  id : String
  role : PhaseRole
  prompt_template : String
  visible_to : VisibleTo := VisibleTo.all_participants
deriving DecidableEq, Repr

/-- `VotingMode` enum from `models.py`. -/
inductive VotingMode where
  | simple_majority
deriving DecidableEq, Repr

/-- `VotingConfig` model from `models.py`. -/
structure VotingConfig where
  mode : VotingMode := VotingMode.simple_majority
  allow_abstain : Bool := false
deriving DecidableEq, Repr

/-- `ResourcePolicy` model from `models.py` (carried, unused by the engine). -/
structure ResourcePolicy where
  max_llm_ram_pct : Nat := 60
  reserve_ram_gb : Nat := 12
  max_parallel_requests : Nat := 3
deriving DecidableEq, Repr

/-- `DebateTemplate` model from `models.py`.  `rounds` is validated `ge=1` by
pydantic; the roster-size validator (`3, 5 or 7` participants) is recorded as
`validate_participants` below. -/
structure DebateTemplate where
  id : String
  name : String
  topic : String
  rounds : Nat := 1
  phases : List PhaseSpec
  participants : List Participant
  moderator : Option Participant := none
  voting : VotingConfig := {}
  resource_policy : ResourcePolicy := {}
deriving DecidableEq, Repr

/-- The `model_validator` on `DebateTemplate`: the roster must have an odd
size in {3, 5, 7}. -/
def validate_participants (t : DebateTemplate) : Bool :=
  t.participants.length == 3 || t.participants.length == 5 || t.participants.length == 7

/-- `VoteValue` enum from `models.py`. -/
inductive VoteValue where
  | yes
  | no
  | invalid
deriving DecidableEq, Repr

/-- `VoteResult` model from `models.py`. -/
structure VoteResult where
  participant_id : String
  raw_output : String
  parsed_vote : VoteValue
deriving DecidableEq, Repr

/-- `PhaseOutput` model from `models.py`. -/
structure PhaseOutput where
  phase_id : String
  participant_id : String
  output : String
deriving DecidableEq, Repr

/-- `RoundOutcome` enum from `models.py`. -/
inductive RoundOutcome where
  | yes
  | no
  | tie
  | invalid
deriving DecidableEq, Repr

/-- `RoundResult` model from `models.py`.  `votes`, `outcome` and
`moderator_summary` default to `None`. -/
structure RoundResult where
  round_index : Nat
  phase_outputs : List PhaseOutput := []
  votes : Option (List VoteResult) := none
  outcome : Option RoundOutcome := none
  moderator_summary : Option String := none
deriving DecidableEq, Repr

/-- `RunStatus` enum from `models.py`. -/
inductive RunStatus where
  | pending
  | running
  | completed
  | failed
  | canceled
deriving DecidableEq, Repr

/-- `run.status in {RunStatus.completed, RunStatus.failed, RunStatus.canceled}`
as used in `advance_debate` (`orchestrator.py` lines 101 and 106). -/
def RunStatus.isTerminal : RunStatus → Bool
  | .completed => true
  | .failed => true
  | .canceled => true
  | _ => false

/-- `RunMode` enum from `models.py`. -/
inductive RunMode where
  | auto
  | step
deriving DecidableEq, Repr

/-- `DebateRun` model from `models.py` (`created_at` omitted: real time,
never read by the engine). -/
structure DebateRun where
  id : String
  template_id : String
  title : String
  topic : String
  status : RunStatus := RunStatus.pending
  mode : RunMode := RunMode.auto
  rounds : List RoundResult := []
deriving DecidableEq, Repr

/-- `FinalRecord` model from `models.py`.  Note that `final_outcome` is a
plain (non-`Optional`) `RoundOutcome` field: pydantic rejects `None` here. -/
structure FinalRecord where
  debate_id : String
  title : String
  final_outcome : RoundOutcome
deriving DecidableEq, Repr

/-- `StartDebateRequest` model from `models.py`. -/
structure StartDebateRequest where
  template_id : String
  topic : Option String := none
  rounds : Option Nat := none
  mode : RunMode := RunMode.auto
deriving DecidableEq, Repr

/-- `AdvanceDebateResponse` model from `models.py`. -/
structure AdvanceDebateResponse where
  debate : DebateRun
  done : Bool
deriving DecidableEq, Repr

/-! ## Python string primitives (ASCII-exact)

`_parse_vote` uses `str.strip`, `str.splitlines`, `str.lstrip("-*•> \t")`,
`str.lower` and the regex `^(?:vote|my vote|i vote)?\s*[:\-]?\s*(yes|no)\b`.
These are modelled over the ASCII character range. -/

/-- Python `str.isspace` / default `str.strip` characters, ASCII range. -/
def pyIsWs (c : Char) : Bool :=
  c == ' ' || c == '\t' || c == '\n' || c == '\x0b' || c == '\x0c' || c == '\r'

/-- Python `str.splitlines` line-boundary characters, ASCII range. -/
def isLineBreak (c : Char) : Bool :=
  c == '\n' || c == '\x0b' || c == '\x0c' || c == '\r'

/-- The characters of `lstrip("-*•> \t")` in `_parse_vote`. -/
def isMarkerChar (c : Char) : Bool :=
  c == '-' || c == '*' || c == '•' || c == '>' || c == ' ' || c == '\t'

/-- Python `str.strip()` on a character list: drop whitespace at both ends. -/
def pyStrip (l : List Char) : List Char :=
  (l.rdropWhile pyIsWs).dropWhile pyIsWs

/-- Python `str.lower()` on a character (ASCII). -/
def pyLower (c : Char) : Char :=
  if 'A' ≤ c && c ≤ 'Z' then Char.ofNat (c.toNat + 32) else c

/-- Regex word character (`\w` over ASCII): letters, digits, underscore. -/
def isWordChar (c : Char) : Bool :=
  ('a' ≤ c && c ≤ 'z') || ('A' ≤ c && c ≤ 'Z') || ('0' ≤ c && c ≤ '9') || c == '_'

/-! ## The vote regex `^(?:vote|my vote|i vote)?\s*[:\-]?\s*(yes|no)\b`

The pattern is embedded as a deterministic matcher.  The greedy `\s*` runs and
the optional `[:\-]?` never need to backtrack here: `:`/`-` are not `\s`, and
`y`/`n` are neither `\s` nor `:`/`-`, so consuming the maximal whitespace run
and a punctuation character when present can never prevent `(yes|no)` from
matching.  The alternation `(?:vote|my vote|i vote)?` is tried in regex order
(each alternative, then the empty string); since the three alternatives start
with distinct characters, at most one of them can be a prefix of the input,
and after a marker has matched the input cannot also start with `yes`/`no`,
so the fall-through structure below is exactly the regex's backtracking. -/

/-- `(yes|no)\b`: the literal token followed by a word boundary (next
character absent or not a word character). -/
def yesNoToken (l : List Char) : Option VoteValue :=
  match l with
  | 'y' :: 'e' :: 's' :: rest =>
      match rest with
      | [] => some VoteValue.yes
      | c :: _ => if isWordChar c then none else some VoteValue.yes
  | 'n' :: 'o' :: rest =>
      match rest with
      | [] => some VoteValue.no
      | c :: _ => if isWordChar c then none else some VoteValue.no
  | _ => none

/-- `\s*[:\-]?\s*(yes|no)\b` after an (optional) marker has been consumed. -/
def voteAfterMarker (l : List Char) : Option VoteValue :=
  let l1 := l.dropWhile pyIsWs
  let l2 := match l1 with
    | c :: rest => if c == ':' || c == '-' then rest else l1
    | [] => []
  yesNoToken (l2.dropWhile pyIsWs)

/-- The whole vote regex, applied (as `re.match`) at the start of the cleaned,
lower-cased first line.  When an alternative of the optional marker group
matches but the rest of the pattern fails, the regex engine retries with the
empty alternative (`voteAfterMarker l`); at most one alternative can match
since the three start with distinct characters. -/
def voteRegexMatch (l : List Char) : Option VoteValue :=
  if ['v', 'o', 't', 'e'].isPrefixOf l then
    match voteAfterMarker (l.drop 4) with
    | some v => some v
    | none => voteAfterMarker l
  else if ['m', 'y', ' ', 'v', 'o', 't', 'e'].isPrefixOf l then
    match voteAfterMarker (l.drop 7) with
    | some v => some v
    | none => voteAfterMarker l
  else if ['i', ' ', 'v', 'o', 't', 'e'].isPrefixOf l then
    match voteAfterMarker (l.drop 6) with
    | some v => some v
    | none => voteAfterMarker l
  else voteAfterMarker l

/-- `DebateOrchestrator._parse_vote` (orchestrator.py lines 268-286).
A `.error` result models the Python call raising: for a non-empty,
all-whitespace `raw`, `raw.strip().splitlines()` is the empty list and the
`[0]` subscript raises `IndexError`. -/
def parse_vote (raw : String) : Except String VoteValue :=
  let l := raw.data
  if l.isEmpty then Except.ok VoteValue.invalid
  else
    let stripped := pyStrip l
    if stripped.isEmpty then Except.error "IndexError: list index out of range"
    else
      let first_line := stripped.takeWhile (fun c => !isLineBreak c)
      let cleaned := pyStrip (first_line.dropWhile isMarkerChar)
      let cleaned_lower := cleaned.map pyLower
      match voteRegexMatch cleaned_lower with
      | some v => Except.ok v
      | none =>
          if ['y', 'e', 's'].isPrefixOf cleaned_lower then Except.ok VoteValue.yes
          else if ['n', 'o'].isPrefixOf cleaned_lower then Except.ok VoteValue.no
          else Except.ok VoteValue.invalid

/-! ## Orchestrator state and collaborators (`orchestrator.py`, `storage.py`)

The orchestrator is projected onto a single run: `OrchState.run` is the
store's entry for that run (`InMemoryStore.runs[run_id]`, never deleted by
the engine), `ctx`/`progress` are that run's entries in the `_context` and
`_progress` side tables, and `finals` is `InMemoryStore.final_records`. -/

/-- The chat client oracle: `AssistantBuilderClient.chat(model_id, messages)`.
Messages are `(role, content)` pairs; `.error e` models the call raising an
exception whose `str()` is `e`. -/
abbrev Chat := String → List (String × String) → Except String String

/-- `RunContext` dataclass from `orchestrator.py`. -/
structure RunContext where
  template : DebateTemplate
  total_rounds : Nat
deriving DecidableEq, Repr

/-- The engine's mutable state, projected to one run. -/
structure OrchState where
  run : DebateRun
  ctx : Option RunContext
  progress : Option (Nat × Nat)
  finals : List FinalRecord
deriving DecidableEq, Repr

/-- Replace the element at index `i` (no-op when out of range), used to model
in-place mutation of `run.rounds[i]` through an alias. -/
def modifyAt {α : Type} : List α → Nat → (α → α) → List α
  | [], _, _ => []
  | x :: xs, 0, f => f x :: xs
  | x :: xs, n + 1, f => x :: modifyAt xs n f

/-- String rendering of a `RoundOutcome` value (`"YES"` etc., the enum's
value; only used inside transcript text, which no claim inspects for rounds
that carry votes). -/
def outcomeStr : RoundOutcome → String
  | RoundOutcome.yes => "YES"
  | RoundOutcome.no => "NO"
  | RoundOutcome.tie => "TIE"
  | RoundOutcome.invalid => "INVALID"

/-- `DebateOrchestrator._prior_round_transcript` (orchestrator.py lines
309-320).  Note `run.rounds[-1]` is the *last* element of the rounds list at
call time, and `if last.votes:` is false both for `None` and for `[]`. -/
def prior_round_transcript (run : DebateRun) : String :=
  match run.rounds.getLast? with
  | none => "(no prior round responses)"
  | some last =>
      let header := "Round " ++ toString last.round_index ++ " transcript:"
      let body := last.phase_outputs.map (fun po =>
        "- " ++ po.participant_id ++ " (" ++ po.phase_id ++ "): " ++ po.output)
      let voteLines :=
        match last.votes with
        | none => []
        | some vs =>
            if vs.isEmpty then []
            else
              let yes := (vs.filter (fun v => v.parsed_vote == VoteValue.yes)).length
              let no := (vs.filter (fun v => v.parsed_vote == VoteValue.no)).length
              ["- Votes: YES " ++ toString yes ++ " / NO " ++ toString no ++
                " | Outcome: " ++ outcomeStr (last.outcome.getD RoundOutcome.invalid)]
      String.intercalate "\n" ([header] ++ body ++ voteLines)

/-- `DebateOrchestrator._build_messages` (orchestrator.py lines 288-307). -/
def build_messages (template : DebateTemplate) (persona_prompt : String)
    (phase : PhaseSpec) (run : DebateRun) (round_index : Nat) :
    List (String × String) :=
  let history_summary := prior_round_transcript run
  let user_content :=
    "[Round " ++ toString round_index ++ " - " ++ phase.id ++ "]\n" ++
    "Debate topic: " ++ run.topic ++ "\n" ++
    "History:\n" ++ history_summary ++ "\n" ++
    "Phase prompt: " ++ phase.prompt_template
  [("system", persona_prompt), ("user", user_content)]

/-- The `run_one` closure inside `_execute_phase` (orchestrator.py lines
191-197): a failing chat call is contained and becomes the marker string
`f"(error: {exc})"`. -/
def run_one (chat : Chat) (template : DebateTemplate) (phase : PhaseSpec)
    (run : DebateRun) (round_index : Nat) (p : Participant) :
    Participant × String :=
  let messages := build_messages template p.persona_prompt phase run round_index
  match chat p.model_id messages with
  | Except.ok raw => (p, raw)
  | Except.error e => (p, "(error: " ++ e ++ ")")

/-- `DebateOrchestrator._execute_phase` (orchestrator.py lines 183-213).
`pos` is the index in `run.rounds` that the `round_result` argument aliases;
`order` is the `asyncio.as_completed` completion order of the fan-out.  Every
task builds its messages against the pre-phase `run` (all tasks start, and
hence build their messages, before the single-threaded event loop can append
any completion), and the completed outputs are appended in `order`.  The
function always returns normally: per-participant failures were already
contained inside `run_one`. -/
def execute_phase (chat : Chat) (template : DebateTemplate) (phase : PhaseSpec)
    (run : DebateRun) (round_index : Nat) (pos : Nat)
    (order : List Participant) : DebateRun × List PhaseOutput :=
  let results := order.map (run_one chat template phase run round_index)
  let outputs := results.map (fun pr => PhaseOutput.mk phase.id pr.1.id pr.2)
  let newRounds := modifyAt run.rounds pos
    (fun r => {r with phase_outputs := r.phase_outputs ++ outputs})
  let run2 := {run with rounds := newRounds}
  (run2, outputs)

/-- The accumulator loop of `_tally_votes` (orchestrator.py lines 240-255):
one `VoteResult` appended per output, `yes`/`no` counters bumped by an
`if`/`elif`; a parse exception propagates. -/
def tallyLoop : List PhaseOutput → List VoteResult → Nat → Nat →
    Except String (List VoteResult × Nat × Nat)
  | [], votes, yes_count, no_count => Except.ok (votes, yes_count, no_count)
  | o :: rest, votes, yes_count, no_count =>
      match parse_vote o.output with
      | Except.error e => Except.error e
      | Except.ok parsed =>
          let votes := votes ++ [VoteResult.mk o.participant_id o.output parsed]
          if parsed == VoteValue.yes then tallyLoop rest votes (yes_count + 1) no_count
          else if parsed == VoteValue.no then tallyLoop rest votes yes_count (no_count + 1)
          else tallyLoop rest votes yes_count no_count

/-- `DebateOrchestrator._tally_votes` (orchestrator.py lines 239-266). -/
def tally_votes (outputs : List PhaseOutput) :
    Except String (List VoteResult × RoundOutcome) :=
  match tallyLoop outputs [] 0 0 with
  | Except.error e => Except.error e
  | Except.ok (votes, yes_count, no_count) =>
      let outcome :=
        if yes_count > no_count then RoundOutcome.yes
        else if no_count > yes_count then RoundOutcome.no
        else if yes_count == no_count && yes_count > 0 then RoundOutcome.tie
        else RoundOutcome.invalid
      Except.ok (votes, outcome)

/-- `DebateOrchestrator._get_or_create_round` (orchestrator.py lines
215-219), as a function on the run. -/
def get_or_create_round (run : DebateRun) (round_index : Nat) : DebateRun :=
  if run.rounds.length < round_index then
    {run with rounds := run.rounds ++ [{round_index := round_index}]}
  else run

/-- `DebateOrchestrator._moderator_summary` (orchestrator.py lines 221-237).
The chat call is *not* wrapped in a `try`, so its exception propagates. -/
def moderator_summary (chat : Chat) (template : DebateTemplate)
    (run : DebateRun) (round_result : RoundResult) : Except String String :=
  match template.moderator with
  | none => Except.ok ""
  | some moderator =>
      let messages := [("system", moderator.persona_prompt),
        ("user", "Topic: " ++ run.topic ++ "\nRound " ++
          toString round_result.round_index ++ " summary requested.")]
      chat moderator.model_id messages

/-- `final_outcome = run.rounds[-1].outcome if run.rounds else
RoundOutcome.invalid` (orchestrator.py line 328).  `none` means the Python
value is `None`. -/
def finalOutcomeOf (run : DebateRun) : Option RoundOutcome :=
  match run.rounds.getLast? with
  | none => some RoundOutcome.invalid
  | some last => last.outcome

/-- `DebateOrchestrator._finalize` (orchestrator.py lines 322-342).  The run
is marked `completed` and persisted *before* `FinalRecord` is constructed;
when the last round has no outcome, `FinalRecord(final_outcome=None)` raises
a pydantic `ValidationError`, leaving the `completed` status persisted and
the `_progress`/`_context` entries still in place. -/
def finalize (s : OrchState) : OrchState × Except String Unit :=
  match s.ctx with
  | none => (s, Except.ok ())
  | some _ =>
      let final_outcome := finalOutcomeOf s.run
      let s1 := {s with run := {s.run with status := RunStatus.completed}}
      match final_outcome with
      | none =>
          (s1, Except.error "ValidationError: final_outcome must be a RoundOutcome")
      | some oc =>
          let s2 := {s1 with
            finals := s1.finals ++ [FinalRecord.mk s1.run.id s1.run.title oc],
            progress := none, ctx := none}
          (s2, Except.ok ())

/-- `DebateOrchestrator._execute_phase_step` (orchestrator.py lines 142-181).
`order` is the completion order used for the single phase this call
executes. -/
def execute_phase_step (chat : Chat) (order : List Participant)
    (s : OrchState) : OrchState × Except String Unit :=
  match s.ctx with
  | none => (s, Except.ok ())
  | some ctx =>
      match s.progress with
      | none => (s, Except.error "KeyError: run_id")
      | some (round_idx, phase_idx) =>
          if round_idx ≥ ctx.total_rounds then finalize s
          else
            let round_number := round_idx + 1
            let template := ctx.template
            let run :=
              if round_idx ≥ s.run.rounds.length then
                {s.run with rounds := s.run.rounds ++ [{round_index := round_number}]}
              else s.run
            match template.phases.get? phase_idx with
            | none => ({s with run := run}, Except.error "IndexError: list index out of range")
            | some phase =>
                let step1 := execute_phase chat template phase run round_number round_idx order
                let run := step1.1
                let outputs := step1.2
                let tallied : Except String DebateRun :=
                  if phase.role == PhaseRole.vote then
                    match tally_votes outputs with
                    | Except.error e => Except.error e
                    | Except.ok (votes, outcome) =>
                        let newRounds := modifyAt run.rounds round_idx
                          (fun r => {r with votes := some votes, outcome := some outcome})
                        Except.ok {run with rounds := newRounds}
                  else Except.ok run
                match tallied with
                | Except.error e => ({s with run := run}, Except.error e)
                | Except.ok run =>
                    if phase_idx == template.phases.length - 1 then
                      let moderated : Except String DebateRun :=
                        match template.moderator with
                        | none => Except.ok run
                        | some _ =>
                            match run.rounds.get? round_idx with
                            | none => Except.ok run
                            | some rr =>
                                match moderator_summary chat template run rr with
                                | Except.error e => Except.error e
                                | Except.ok summary =>
                                    let newRounds := modifyAt run.rounds round_idx
                                      (fun r => {r with moderator_summary := some summary})
                                    Except.ok {run with rounds := newRounds}
                      match moderated with
                      | Except.error e => ({s with run := run}, Except.error e)
                      | Except.ok run =>
                          let s1 := {s with run := run, progress := some (round_idx + 1, 0)}
                          if round_idx + 1 ≥ ctx.total_rounds then finalize s1
                          else (s1, Except.ok ())
                    else
                      let s1 := {s with run := run, progress := some (round_idx, phase_idx + 1)}
                      if round_idx ≥ ctx.total_rounds then finalize s1
                      else (s1, Except.ok ())

/-- `DebateOrchestrator.advance_debate` (orchestrator.py lines 94-107).  The
run itself always exists in the store; `"debate not found"` is raised exactly
when the `_context` entry is gone (`if not ctx or not run`). -/
def advance_debate (chat : Chat) (order : List Participant) (s : OrchState) :
    OrchState × Except String AdvanceDebateResponse :=
  match s.ctx with
  | none => (s, Except.error "debate not found")
  | some _ =>
      if s.run.mode != RunMode.step then (s, Except.error "debate not in step mode")
      else if s.run.status.isTerminal then (s, Except.ok ⟨s.run, true⟩)
      else
        let step := execute_phase_step chat order s
        match step.2 with
        | Except.error e => (step.1, Except.error e)
        | Except.ok _ => (step.1, Except.ok ⟨step.1.run, step.1.run.status.isTerminal⟩)

/-- `DebateOrchestrator.cancel` (orchestrator.py lines 109-117): sets the
status to `canceled` unconditionally and drops the `_progress` and `_context`
entries. -/
def cancel (s : OrchState) : OrchState × DebateRun :=
  let run := {s.run with status := RunStatus.canceled}
  ({run := run, ctx := none, progress := none, finals := s.finals}, run)

/-- `DebateOrchestrator.start_debate` (orchestrator.py lines 42-66) for a
template that exists: builds the run (status `running`), registers context
and progress.  Python `or` treats `""` and `0` as falsy. -/
def start_debate (template : DebateTemplate) (payload : StartDebateRequest) :
    OrchState :=
  let topic := match payload.topic with
    | some t => if t == "" then template.topic else t
    | none => template.topic
  let total_rounds := match payload.rounds with
    | some n => if n == 0 then template.rounds else n
    | none => template.rounds
  let run : DebateRun := {
    id := "run-1", template_id := template.id, title := template.name,
    topic := topic, status := RunStatus.running, mode := payload.mode,
    rounds := [] }
  { run := run, ctx := some ⟨template, total_rounds⟩,
    progress := some (0, 0), finals := [] }

/-! ## The auto-mode loop as a small-step machine

`_run_to_completion` executes, for each round, the body of `_execute_round`;
its genuine suspension points are the awaited chat calls and the
`as_completed` loop.  Between any two of the steps below the event loop may
run `cancel` (the HTTP cancel handler).  Each event is a code segment of
`orchestrator.py` executed atomically with respect to cancellation:

* `roundEntry` — `_execute_round` lines 120-127: re-read `ctx`/`run` (a
  no-op when the context entry is gone) and `_get_or_create_round`.
* `phaseExec` — one iteration of the phase loop (lines 129-135): the whole
  fan-out of one phase plus, for a vote phase, the tally.  It uses the
  *captured* local `ctx.template` and `round_result` (the last round), so it
  runs even if `cancel` popped the context table in the meantime; a tally
  exception aborts the task, leaving the appended outputs in place.
* `moderatorStep` — lines 137-140, with the chat result as payload; on a
  chat exception nothing is recorded.
* `finalizeEv` — `_finalize` (lines 322-342).
* `cancelEv` — `DebateOrchestrator.cancel` interleaved by the server. -/

inductive AutoEv where
  | roundEntry
  | phaseExec (template : DebateTemplate) (phase : PhaseSpec) (round_number : Nat)
      (order : List Participant)
  | moderatorStep (summary : Except String String)
  | finalizeEv
  | cancelEv

/-- One step of the auto-mode machine. -/
def stepEv (chat : Chat) : AutoEv → OrchState → OrchState
  | AutoEv.roundEntry, s =>
      match s.ctx with
      | none => s
      | some _ =>
          let round_index := s.run.rounds.length + 1
          {s with run := get_or_create_round s.run round_index}
  | AutoEv.phaseExec template phase round_number order, s =>
      if s.run.rounds.isEmpty then s
      else
        let pos := s.run.rounds.length - 1
        let res := execute_phase chat template phase s.run round_number pos order
        if phase.role == PhaseRole.vote then
          match tally_votes res.2 with
          | Except.error _ => {s with run := res.1}
          | Except.ok (votes, outcome) =>
              let newRounds := modifyAt res.1.rounds pos
                (fun r => {r with votes := some votes, outcome := some outcome})
              {s with run := {res.1 with rounds := newRounds}}
        else {s with run := res.1}
  | AutoEv.moderatorStep summary, s =>
      match summary with
      | Except.error _ => s
      | Except.ok sum =>
          if s.run.rounds.isEmpty then s
          else
            let pos := s.run.rounds.length - 1
            let newRounds := modifyAt s.run.rounds pos
              (fun r => {r with moderator_summary := some sum})
            {s with run := {s.run with rounds := newRounds}}
  | AutoEv.finalizeEv, s => (finalize s).1
  | AutoEv.cancelEv, s => (cancel s).1

/-- Run a sequence of auto-loop events. -/
def stepsEv (chat : Chat) (evs : List AutoEv) (s : OrchState) : OrchState :=
  evs.foldl (fun st e => stepEv chat e st) s

/-! ## Concrete fixtures used by the evaluation theorems -/

/-- Fixture participant. -/
def pA : Participant :=
  { id := "p-a", display_name := "A", model_id := "model-a", persona_prompt := "persona A" }

/-- Fixture participant. -/
def pB : Participant :=
  { id := "p-b", display_name := "B", model_id := "model-b", persona_prompt := "persona B" }

/-- Fixture participant. -/
def pC : Participant :=
  { id := "p-c", display_name := "C", model_id := "model-c", persona_prompt := "persona C" }

/-- Fixture roster (3 participants: a valid template roster size). -/
def roster : List Participant := [pA, pB, pC]

/-- Fixture non-vote phase. -/
def phaseOne : PhaseSpec := { id := "ph-1", role := PhaseRole.custom, prompt_template := "P1" }

/-- Fixture non-vote phase. -/
def phaseTwo : PhaseSpec := { id := "ph-2", role := PhaseRole.custom, prompt_template := "P2" }

/-- Fixture non-vote phase. -/
def phaseThree : PhaseSpec := { id := "ph-3", role := PhaseRole.custom, prompt_template := "P3" }

/-- Fixture vote phase. -/
def phaseVote : PhaseSpec := { id := "ph-v", role := PhaseRole.vote, prompt_template := "Vote now" }

/-- Template with 1 round and a single vote phase (finalization succeeds). -/
def tmplVote : DebateTemplate :=
  { id := "tpl-v", name := "Vote debate", topic := "T", rounds := 1,
    phases := [phaseVote], participants := roster }

/-- Template with 2 rounds × 3 non-vote phases, no moderator (the §8 step-mode
scenario). -/
def tmplTwoByThree : DebateTemplate :=
  { id := "tpl-23", name := "Two by three", topic := "T", rounds := 2,
    phases := [phaseOne, phaseTwo, phaseThree], participants := roster }

/-- Chat oracle returning a fixed text for every call. -/
def constChat (text : String) : Chat := fun _ _ => Except.ok text

/-- Chat oracle that echoes back the last message's content (used to observe
the exact prompt a participant received). -/
def echoChat : Chat := fun _ msgs => Except.ok ((msgs.getLast?.map Prod.snd).getD "")

/-- Step-mode start request. -/
def stepPayload (tid : String) : StartDebateRequest :=
  { template_id := tid, mode := RunMode.step }

/-- State after `n` step-mode advances (roster completion order). -/
def advIter (chat : Chat) (s : OrchState) : Nat → OrchState
  | 0 => s
  | n + 1 => (advance_debate chat roster (advIter chat s n)).1

/-- Response of the `n`-th advance (1-based). -/
def advRespAt (chat : Chat) (s : OrchState) (n : Nat) :
    Except String AdvanceDebateResponse :=
  (advance_debate chat roster (advIter chat s (n - 1))).2

/-! ## Spec-side definitions

These follow the specification's words (spec.md §4.3) and are compared with
the source-derived definitions above in the refinement theorems. -/

/-- Spec §4.3: the yes-count of a vote phase — the number of outputs whose
vote parsed as YES.  (Votes that parsed as INVALID count toward neither
tally.) -/
def specYesCount (outputs : List PhaseOutput) : Nat :=
  (outputs.filter (fun o => parse_vote o.output == Except.ok VoteValue.yes)).length

/-- Spec §4.3: the no-count of a vote phase. -/
def specNoCount (outputs : List PhaseOutput) : Nat :=
  (outputs.filter (fun o => parse_vote o.output == Except.ok VoteValue.no)).length

/-- Spec §4.3 tally: "outcome is YES if yes-count > no-count, NO if no-count
> yes-count, TIE if both counts are equal and positive, INVALID if both
counts are zero". -/
def specTallyOutcome (outputs : List PhaseOutput) : RoundOutcome :=
  if specYesCount outputs > specNoCount outputs then RoundOutcome.yes
  else if specNoCount outputs > specYesCount outputs then RoundOutcome.no
  else if specYesCount outputs = specNoCount outputs ∧ 0 < specYesCount outputs then
    RoundOutcome.tie
  else RoundOutcome.invalid

/-- The parsed vote of one output (only used under the hypothesis that
parsing does not raise). -/
def parsedOf (o : PhaseOutput) : VoteValue :=
  match parse_vote o.output with
  | Except.ok v => v
  | Except.error _ => VoteValue.invalid

/-- Bullet/arrow marker characters named by spec §4.3 ("strip leading
bullet/arrow markers"). -/
def isBulletArrow (c : Char) : Bool :=
  c == '-' || c == '*' || c == '•' || c == '>'

/-- A line has content when it is not "empty" in the sense of spec §4.3's
"first non-empty line": it contains a non-whitespace character. -/
def hasContent (l : List Char) : Bool :=
  l.any (fun c => !pyIsWs c)

/-- The lines of a text, every line-break character ending a line (the first
line of this splitting agrees with Python `splitlines` whenever it is
non-empty, which is the only case the spec's heuristic uses). -/
def linesOf : List Char → List (List Char)
  | [] => [[]]
  | c :: r =>
      if isLineBreak c then [] :: linesOf r
      else
        match linesOf r with
        | ln :: rest => (c :: ln) :: rest
        | [] => [[c]]

/-- Spec §4.3: "take the first non-empty line of the raw text". -/
def specFirstContentLine (raw : List Char) : Option (List Char) :=
  (linesOf raw).find? hasContent

/-- Spec §4.3: "strip leading bullet/arrow markers and whitespace" (the
line's surrounding whitespace is stripped as well, matching the examples). -/
def specCleanLine (ln : List Char) : List Char :=
  pyStrip (ln.dropWhile (fun c => isBulletArrow c || pyIsWs c))

/-- Spec §4.3: "the token `yes` or `no` as a whole word". -/
def specWholeWordYesNo (l : List Char) : Option VoteValue :=
  match l with
  | 'y' :: 'e' :: 's' :: rest =>
      match rest with
      | [] => some VoteValue.yes
      | c :: _ => if isWordChar c then none else some VoteValue.yes
  | 'n' :: 'o' :: rest =>
      match rest with
      | [] => some VoteValue.no
      | c :: _ => if isWordChar c then none else some VoteValue.no
  | _ => none

/-- Spec §4.3: "followed by an optional colon/dash and then the token `yes`
or `no`" (whitespace around the punctuation is allowed, as in the spec's own
worked cases "Vote: YES" and "my vote - no"). -/
def specColonDashThenToken (l : List Char) : Option VoteValue :=
  let l1 := l.dropWhile pyIsWs
  let l2 := match l1 with
    | c :: rest => if c == ':' || c == '-' then rest else l1
    | [] => []
  specWholeWordYesNo (l2.dropWhile pyIsWs)

/-- Spec §4.3: "an optional leading `vote`/`my vote`/`i vote` marker" —
remove the marker when the line starts with one. -/
def specStripVoteMarker (l : List Char) : List Char :=
  if ['v', 'o', 't', 'e'].isPrefixOf l then l.drop 4
  else if ['m', 'y', ' ', 'v', 'o', 't', 'e'].isPrefixOf l then l.drop 7
  else if ['i', ' ', 'v', 'o', 't', 'e'].isPrefixOf l then l.drop 6
  else l

/-- Spec §4.3's heuristic on the cleaned, lower-cased line: the marker match,
"failing that, accept a bare `yes`/`no` prefix; otherwise classify
INVALID". -/
def specHeuristicLine (cl : List Char) : VoteValue :=
  match specColonDashThenToken (specStripVoteMarker cl) with
  | some v => v
  | none =>
      if ['y', 'e', 's'].isPrefixOf cl then VoteValue.yes
      else if ['n', 'o'].isPrefixOf cl then VoteValue.no
      else VoteValue.invalid

/-- Spec §4.3's whole parsing heuristic.  When no non-empty line exists the
heuristic has nothing to match and classifies INVALID ("otherwise classify
INVALID"); the equivalence theorem is stated for empty or contentful raw
texts, the whitespace-only gap being claim C10's subject. -/
def specHeuristic (raw : String) : VoteValue :=
  match specFirstContentLine raw.data with
  | none => VoteValue.invalid
  | some ln => specHeuristicLine ((specCleanLine ln).map pyLower)

/-! ## Further fixtures -/

/-- The terminal (completed) state of the one-round vote debate after its
single step-mode advance. -/
def sDone : OrchState :=
  advIter (constChat "yes") (start_debate tmplVote (stepPayload "tpl-v")) 1

/-- Start state of the 2×3 step-mode debate. -/
def sTwoByThree : OrchState := start_debate tmplTwoByThree (stepPayload "tpl-23")

/-- Start state of a 2×3 auto-mode debate. -/
def sAuto : OrchState := start_debate tmplTwoByThree { template_id := "tpl-23" }

/-- Auto-mode history: round 1 entered, phase 1 executed, then the run is
canceled while the round is still in flight. -/
def sCanceledMidRound : OrchState :=
  stepsEv (constChat "text")
    [AutoEv.roundEntry, AutoEv.phaseExec tmplTwoByThree phaseOne 1 roster, AutoEv.cancelEv]
    sAuto

/-- Is the event the interleaved cancel? -/
def AutoEv.isCancel : AutoEv → Bool
  | AutoEv.cancelEv => true
  | _ => false

/-- A chat oracle whose call fails (raises) for one given model id. -/
def failingChat (badModel : String) : Chat := fun model_id _ =>
  if model_id == badModel then Except.error "boom" else Except.ok "fine"

/-- The run of `sNoOutcome`. -/
def runNoOutcome : DebateRun :=
  { id := "run-1", template_id := "tpl-23", title := "Two by three",
    topic := "T", status := RunStatus.running, mode := RunMode.step,
    rounds := [{round_index := 1}] }

/-- A running step-mode run whose only round never recorded an outcome, with
its context entry still present (the state `_finalize` receives for a
no-vote template). -/
def sNoOutcome : OrchState :=
  { run := runNoOutcome, ctx := some ⟨tmplTwoByThree, 1⟩,
    progress := some (1, 0), finals := [] }

/-- Like `sNoOutcome` but with the run already marked `completed` (what
`_finalize` persists before the `FinalRecord` construction raises). -/
def sNoOutcomeCompleted : OrchState :=
  { run := {runNoOutcome with status := RunStatus.completed},
    ctx := some ⟨tmplTwoByThree, 1⟩, progress := some (1, 0), finals := [] }

/-- The run of `sWithOutcome`: its round recorded outcome YES. -/
def runWithOutcome : DebateRun :=
  { id := "run-1", template_id := "tpl-v", title := "Vote debate",
    topic := "T", status := RunStatus.running, mode := RunMode.step,
    rounds := [{round_index := 1, outcome := some RoundOutcome.yes}] }

/-- A running run whose last round recorded outcome YES, context present. -/
def sWithOutcome : OrchState :=
  { run := runWithOutcome, ctx := some ⟨tmplVote, 1⟩,
    progress := some (1, 0), finals := [] }

/-! ## Helper lemmas -/

theorem modifyAt_length {α : Type} (l : List α) (i : Nat) (f : α → α) :
    (modifyAt l i f).length = l.length := by
  induction l generalizing i with
  | nil => rfl
  | cons x xs ih =>
      cases i with
      | zero => rfl
      | succ n => simpa [modifyAt] using ih n

theorem execute_phase_status (chat : Chat) (template : DebateTemplate)
    (phase : PhaseSpec) (run : DebateRun) (round_index pos : Nat)
    (order : List Participant) :
    (execute_phase chat template phase run round_index pos order).1.status = run.status := rfl

theorem execute_phase_rounds_length (chat : Chat) (template : DebateTemplate)
    (phase : PhaseSpec) (run : DebateRun) (round_index pos : Nat)
    (order : List Participant) :
    (execute_phase chat template phase run round_index pos order).1.rounds.length =
      run.rounds.length := by
  unfold execute_phase
  simp [modifyAt_length]

theorem finalize_of_ctx_none (s : OrchState) (h : s.ctx = none) :
    finalize s = (s, Except.ok ()) := by
  unfold finalize
  rw [h]

theorem stepEv_phaseExec_shape (chat : Chat) (template : DebateTemplate)
    (phase : PhaseSpec) (rn : Nat) (order : List Participant) (s : OrchState) :
    (stepEv chat (AutoEv.phaseExec template phase rn order) s).run.status = s.run.status ∧
    (stepEv chat (AutoEv.phaseExec template phase rn order) s).ctx = s.ctx ∧
    (stepEv chat (AutoEv.phaseExec template phase rn order) s).run.rounds.length =
      s.run.rounds.length := by
  unfold stepEv
  by_cases hemp : s.run.rounds.isEmpty
  · simp [hemp]
  · simp only [hemp, Bool.false_eq_true, if_false]
    by_cases hrole : phase.role == PhaseRole.vote
    · simp only [hrole, if_true]
      cases htv : tally_votes (execute_phase chat template phase s.run rn
          (s.run.rounds.length - 1) order).2 with
      | error e =>
          simp [htv, execute_phase_status, execute_phase_rounds_length]
      | ok vr =>
          cases vr with
          | mk votes outcome =>
              simp [htv, modifyAt_length, execute_phase_status,
                execute_phase_rounds_length]
    · simp [hrole, execute_phase_status, execute_phase_rounds_length]

theorem stepEv_moderator_shape (chat : Chat) (summary : Except String String)
    (s : OrchState) :
    (stepEv chat (AutoEv.moderatorStep summary) s).run.status = s.run.status ∧
    (stepEv chat (AutoEv.moderatorStep summary) s).ctx = s.ctx ∧
    (stepEv chat (AutoEv.moderatorStep summary) s).run.rounds.length =
      s.run.rounds.length := by
  unfold stepEv
  cases summary with
  | error e => simp
  | ok sum =>
      by_cases hemp : s.run.rounds.isEmpty
      · simp [hemp]
      · simp [hemp, modifyAt_length]

theorem stepEv_cancel_shape (chat : Chat) (s : OrchState) :
    (stepEv chat AutoEv.cancelEv s).run.status = RunStatus.canceled ∧
    (stepEv chat AutoEv.cancelEv s).ctx = none ∧
    (stepEv chat AutoEv.cancelEv s).run.rounds.length = s.run.rounds.length := by
  unfold stepEv cancel
  exact ⟨rfl, rfl, rfl⟩

/-- Once a run is canceled and its context entry dropped, no auto-loop event
changes its status or its number of rounds. -/
theorem stepEv_canceled_inv (chat : Chat) (ev : AutoEv) (s : OrchState)
    (h1 : s.run.status = RunStatus.canceled) (h2 : s.ctx = none) :
    (stepEv chat ev s).run.status = RunStatus.canceled ∧
    (stepEv chat ev s).ctx = none ∧
    (stepEv chat ev s).run.rounds.length = s.run.rounds.length := by
  cases ev with
  | roundEntry =>
      simp [stepEv, h2, h1]
  | phaseExec template phase rn order =>
      have h := stepEv_phaseExec_shape chat template phase rn order s
      exact ⟨h.1.trans h1, h.2.1.trans h2, h.2.2⟩
  | moderatorStep summary =>
      have h := stepEv_moderator_shape chat summary s
      exact ⟨h.1.trans h1, h.2.1.trans h2, h.2.2⟩
  | finalizeEv =>
      simp [stepEv, finalize_of_ctx_none s h2, h1, h2]
  | cancelEv =>
      have h := stepEv_cancel_shape chat s
      exact ⟨h.1, h.2.1, h.2.2⟩

theorem stepsEv_canceled_inv (chat : Chat) (evs : List AutoEv) :
    ∀ s : OrchState, s.run.status = RunStatus.canceled → s.ctx = none →
    (stepsEv chat evs s).run.status = RunStatus.canceled ∧
    (stepsEv chat evs s).ctx = none ∧
    (stepsEv chat evs s).run.rounds.length = s.run.rounds.length := by
  induction evs with
  | nil => intro s h1 h2; exact ⟨h1, h2, rfl⟩
  | cons e rest ih =>
      intro s h1 h2
      have hstep := stepEv_canceled_inv chat e s h1 h2
      have hrest := ih (stepEv chat e s) hstep.1 hstep.2.1
      exact ⟨hrest.1, hrest.2.1, hrest.2.2.trans hstep.2.2⟩

/-! ## Claim C3 -/

/-- C3 (amended): once `cancel` runs — at whatever point of the auto-mode
loop it is interleaved — every later step of the loop (round entries, phase
fan-outs of the in-flight round, moderator steps, finalization, further
cancels) leaves the run's status `canceled` and appends no further
`RoundResult` to the run. -/
theorem c3_after_cancel_no_new_rounds (chat : Chat) (s0 : OrchState)
    (pre post : List AutoEv) :
    (stepsEv chat post (stepEv chat AutoEv.cancelEv (stepsEv chat pre s0))).run.status =
      RunStatus.canceled ∧
    (stepsEv chat post (stepEv chat AutoEv.cancelEv (stepsEv chat pre s0))).run.rounds.length =
      (stepEv chat AutoEv.cancelEv (stepsEv chat pre s0)).run.rounds.length := by
  have hc := stepEv_cancel_shape chat (stepsEv chat pre s0)
  have h := stepsEv_canceled_inv chat post
    (stepEv chat AutoEv.cancelEv (stepsEv chat pre s0)) hc.1 hc.2.1
  exact ⟨h.1, h.2.2⟩

/-- C3 (counterexample): the claim says the engine "stops progressing at the
next phase-boundary checkpoint (after the current phase's fan-out
completes)".  In auto mode the only cancellation checkpoint is the *round*
entry: after a cancel that lands while round 1 is in flight (one of its three
phases done), the loop still executes the round's next phase, appending three
more `PhaseOutput`s to the canceled run — the engine is still progressing
past a phase boundary. -/
theorem c3_counterexample :
    sCanceledMidRound.run.status = RunStatus.canceled ∧
    sCanceledMidRound.run.rounds.map (fun r => r.phase_outputs.length) = [3] ∧
    ((stepEv (constChat "text") (AutoEv.phaseExec tmplTwoByThree phaseTwo 1 roster)
        sCanceledMidRound).run.rounds.map (fun r => r.phase_outputs.length)) = [6] ∧
    (stepEv (constChat "text") (AutoEv.phaseExec tmplTwoByThree phaseTwo 1 roster)
        sCanceledMidRound).run ≠ sCanceledMidRound.run := by
  refine ⟨by decide, by decide, by decide, by decide⟩

/-! ## Claim C5 -/

theorem get_or_create_round_status (run : DebateRun) (i : Nat) :
    (get_or_create_round run i).status = run.status := by
  unfold get_or_create_round
  split <;> rfl

theorem finalize_fst_status (s : OrchState) (c : RunContext)
    (hctx : s.ctx = some c) :
    (finalize s).1.run.status = RunStatus.completed := by
  simp only [finalize, hctx]
  cases finalOutcomeOf s.run <;> simp

/-- C5 (counterexample): `cancel` on an already-`completed` run does not
leave the status `completed` — it overwrites it with `canceled`.  `sDone` is
the completed state of a finished one-round step-mode debate. -/
theorem c5_counterexample :
    sDone.run.status = RunStatus.completed ∧
    (cancel sDone).1.run.status = RunStatus.canceled ∧
    (cancel sDone).1.run.status ≠ RunStatus.completed := by
  refine ⟨by decide, by decide, by decide⟩

/-- C5 (amended): a terminal status is never changed by `advance` or by any
auto-loop step other than an interleaved cancel (given the engine's
reachability invariant that `canceled`/`failed` runs hold no context entry);
`cancel` itself, however, unconditionally sets the status to `canceled`,
including on an already-`completed` run. -/
theorem c5_terminal_status (chat : Chat) (order : List Participant)
    (s : OrchState) (ev : AutoEv)
    (hterm : s.run.status.isTerminal = true)
    (hinv : s.run.status = RunStatus.canceled ∨ s.run.status = RunStatus.failed →
      s.ctx = none)
    (hev : AutoEv.isCancel ev = false) :
    (advance_debate chat order s).1.run.status = s.run.status ∧
    (stepEv chat ev s).run.status = s.run.status ∧
    (cancel s).1.run.status = RunStatus.canceled := by
  refine ⟨?_, ?_, rfl⟩
  · cases hctx : s.ctx with
    | none => simp [advance_debate, hctx]
    | some c =>
        by_cases hmode : s.run.mode != RunMode.step
        · simp [advance_debate, hctx, hmode]
        · simp [advance_debate, hctx, hmode, hterm]
  · cases ev with
    | roundEntry =>
        cases hctx : s.ctx with
        | none => simp [stepEv, hctx]
        | some c => simp [stepEv, hctx, get_or_create_round_status]
    | phaseExec template phase rn order2 =>
        exact (stepEv_phaseExec_shape chat template phase rn order2 s).1
    | moderatorStep summary =>
        exact (stepEv_moderator_shape chat summary s).1
    | finalizeEv =>
        cases hctx : s.ctx with
        | none =>
            show (finalize s).1.run.status = s.run.status
            rw [finalize_of_ctx_none s hctx]
        | some c =>
            show (finalize s).1.run.status = s.run.status
            rw [finalize_fst_status s c hctx]
            cases hst : s.run.status with
            | pending => rw [hst] at hterm; simp [RunStatus.isTerminal] at hterm
            | running => rw [hst] at hterm; simp [RunStatus.isTerminal] at hterm
            | completed => rfl
            | failed =>
                have := hinv (Or.inr hst)
                rw [this] at hctx
                exact absurd hctx (by simp)
            | canceled =>
                have := hinv (Or.inl hst)
                rw [this] at hctx
                exact absurd hctx (by simp)
    | cancelEv => simp [AutoEv.isCancel] at hev

/-- Witness for `c5_terminal_status` at a concrete completed run. -/
theorem c5_terminal_status_witness :
    sDone.run.status.isTerminal = true ∧
    AutoEv.isCancel AutoEv.roundEntry = false ∧
    ((advance_debate (constChat "yes") roster sDone).1.run.status = sDone.run.status ∧
      (stepEv (constChat "yes") AutoEv.roundEntry sDone).run.status = sDone.run.status ∧
      (cancel sDone).1.run.status = RunStatus.canceled) :=
  ⟨by decide, by decide,
    c5_terminal_status (constChat "yes") roster sDone AutoEv.roundEntry
      (by decide) (by decide) (by decide)⟩

/-! ## Claim C10 -/

/-- C10 (code_bug): vote parsing is not total.  On any non-empty raw text
consisting only of whitespace characters, `raw.strip()` is empty, so
`raw.strip().splitlines()` is `[]` and the `[0]` subscript in `_parse_vote`
raises `IndexError` instead of returning a `VoteValue`. -/
theorem c10_parse_vote_whitespace_raises (raw : String)
    (hne : raw.data ≠ []) (hws : ∀ c ∈ raw.data, pyIsWs c = true) :
    parse_vote raw = Except.error "IndexError: list index out of range" := by
  have hstrip : pyStrip raw.data = [] := by
    unfold pyStrip
    rw [List.dropWhile_eq_nil_iff]
    intro x hx
    exact hws x ( (List.rdropWhile_prefix pyIsWs raw.data).sublist.subset hx)
  have hne2 : raw.data.isEmpty = false := by
    cases h : raw.data with
    | nil => exact absurd h hne
    | cons a l => rfl
  simp [parse_vote, hne2, hstrip]

/-- Witness for `c10_parse_vote_whitespace_raises` at the single-space
input. -/
theorem c10_parse_vote_whitespace_raises_witness :
    " ".data ≠ [] ∧
    parse_vote " " = Except.error "IndexError: list index out of range" :=
  ⟨by decide, c10_parse_vote_whitespace_raises " " (by decide) (by decide)⟩

/-! ## Claim C1 -/

/-- C1 (code_bug): advancing an already-terminal run does not return the run
with `done=true`.  `sDone` is a completed one-round step-mode run (its single
advance did return `done=true`), but a further `advance` raises
`"debate not found"`: `_finalize` (and `cancel`) discard the run's `_context`
entry, and `advance_debate` checks that entry *before* its terminal-status
branch, so the `done=true` branch is unreachable for normally-terminal runs.
A canceled (non-step) run likewise gets `"debate not found"` rather than the
invalid-mode error. -/
theorem c1_advance_on_terminal_raises_not_found :
    advRespAt (constChat "yes") (start_debate tmplVote (stepPayload "tpl-v")) 1 =
      Except.ok ⟨sDone.run, true⟩ ∧
    sDone.run.status = RunStatus.completed ∧
    sDone.ctx = none ∧
    (advance_debate (constChat "yes") roster sDone).2 =
      Except.error "debate not found" ∧
    (advance_debate (constChat "yes") roster sDone).1 = sDone ∧
    (cancel sAuto).1.run.status = RunStatus.canceled ∧
    (advance_debate (constChat "text") roster (cancel sAuto).1).2 =
      Except.error "debate not found" := by
  decide

/-! ## Claim C2 -/

/-- C2 (code_bug): in round 1 the history rendering embedded in every
participant's prompt is `"Round 1 transcript:"` — `_prior_round_transcript`
renders `run.rounds[-1]`, which at prompt-build time is the freshly appended
*current* round — and never the placeholder `"(no prior round responses)"`;
the placeholder branch (`rounds == []`) is unreachable during phase
execution.  In round 2 the prompts render `"Round 2 transcript:"` (the
current round again), not round 1's transcript.  The oracle echoes the user
prompt back, so the run records exactly what each participant was shown. -/
theorem c2_round_one_prompt_renders_current_round :
    ((advIter echoChat sTwoByThree 1).run.rounds.map
        (fun r => r.phase_outputs.map (fun o => o.output)) =
      [["[Round 1 - ph-1]\nDebate topic: T\nHistory:\nRound 1 transcript:\nPhase prompt: P1",
        "[Round 1 - ph-1]\nDebate topic: T\nHistory:\nRound 1 transcript:\nPhase prompt: P1",
        "[Round 1 - ph-1]\nDebate topic: T\nHistory:\nRound 1 transcript:\nPhase prompt: P1"]]) ∧
    prior_round_transcript {sTwoByThree.run with rounds := [{round_index := 1}]} =
      "Round 1 transcript:" ∧
    "Round 1 transcript:" ≠ "(no prior round responses)" ∧
    ((advIter echoChat sTwoByThree 4).run.rounds.getLast?.map
        (fun r => r.phase_outputs.map (fun o => o.output)) =
      some
        ["[Round 2 - ph-1]\nDebate topic: T\nHistory:\nRound 2 transcript:\nPhase prompt: P1",
          "[Round 2 - ph-1]\nDebate topic: T\nHistory:\nRound 2 transcript:\nPhase prompt: P1",
          "[Round 2 - ph-1]\nDebate topic: T\nHistory:\nRound 2 transcript:\nPhase prompt: P1"]) := by
  decide

/-! ## Claim C4 -/

/-- C4 (code_bug): finalization only defaults to INVALID when the run has *no*
rounds.  When the last round exists but never recorded an outcome (no
vote-role phase ran), `_finalize` passes `None` to the non-optional
`FinalRecord.final_outcome` field and pydantic raises a `ValidationError` —
after the `completed` status was already persisted and without discarding the
context entry, and without writing any `FinalRecord`.  The zero-round case
and the recorded-outcome case behave as claimed. -/
theorem c4_finalize_crashes_without_outcome :
    (finalize sNoOutcome).2 =
      Except.error "ValidationError: final_outcome must be a RoundOutcome" ∧
    (finalize sNoOutcome).1 = sNoOutcomeCompleted ∧
    (finalize sTwoByThree).2 = Except.ok () ∧
    (finalize sTwoByThree).1.finals =
      [{ debate_id := "run-1", title := "Two by three",
         final_outcome := RoundOutcome.invalid }] ∧
    (finalize sWithOutcome).1.finals =
      [{ debate_id := "run-1", title := "Vote debate",
         final_outcome := RoundOutcome.yes }] ∧
    (finalize sWithOutcome).2 = Except.ok () := by
  decide

/-! ## Claim C8 -/

/-- C8 (code_bug): the 2-round × 3-phase no-vote, no-moderator step-mode
scenario.  The progress cursor does visit (0,0),(0,1),(0,2),(1,0),(1,1),(1,2)
in order, never revisiting a pair, resetting the phase index to zero when a
round's last phase completes; and the first five advances return
`done=false`.  But the sixth advance does not return `done=true`: it raises
the `FinalRecord` validation error of claim C4 (no vote phase ran, so the
last round has no outcome), after persisting status `completed` and moving
the cursor to (2,0).  Only a seventh call — possible because the context
entry survives the crash — returns the run with `done=true`. -/
theorem c8_step_trace_sixth_advance_raises :
    ((List.range 6).map
        (fun n => (advIter (constChat "text") sTwoByThree n).progress) =
      [some (0, 0), some (0, 1), some (0, 2), some (1, 0), some (1, 1),
        some (1, 2)]) ∧
    ((List.range 6).map
        (fun n => (advIter (constChat "text") sTwoByThree n).progress)).Nodup ∧
    ((List.range 5).map
        (fun n =>
          match advRespAt (constChat "text") sTwoByThree (n + 1) with
          | Except.ok r => some r.done
          | Except.error _ => none) =
      [some false, some false, some false, some false, some false]) ∧
    advRespAt (constChat "text") sTwoByThree 6 =
      Except.error "ValidationError: final_outcome must be a RoundOutcome" ∧
    (advIter (constChat "text") sTwoByThree 6).run.status = RunStatus.completed ∧
    (advIter (constChat "text") sTwoByThree 6).progress = some (2, 0) ∧
    advRespAt (constChat "text") sTwoByThree 7 =
      Except.ok ⟨(advIter (constChat "text") sTwoByThree 6).run, true⟩ := by
  decide

/-! ## Claim C6 -/

theorem specYesCount_cons (o : PhaseOutput) (rest : List PhaseOutput) :
    specYesCount (o :: rest) =
      (if parse_vote o.output == Except.ok VoteValue.yes then 1 else 0) +
        specYesCount rest := by
  unfold specYesCount
  by_cases h : parse_vote o.output == Except.ok VoteValue.yes
  · simp [h, List.filter_cons]
    omega
  · simp [h, List.filter_cons]

theorem specNoCount_cons (o : PhaseOutput) (rest : List PhaseOutput) :
    specNoCount (o :: rest) =
      (if parse_vote o.output == Except.ok VoteValue.no then 1 else 0) +
        specNoCount rest := by
  unfold specNoCount
  by_cases h : parse_vote o.output == Except.ok VoteValue.no
  · simp [h, List.filter_cons]
    omega
  · simp [h, List.filter_cons]

theorem tallyLoop_ok (outputs : List PhaseOutput) :
    ∀ (votes : List VoteResult) (y n : Nat),
    (∀ o ∈ outputs, (parse_vote o.output).isOk = true) →
    tallyLoop outputs votes y n =
      Except.ok
        (votes ++ outputs.map
          (fun o => VoteResult.mk o.participant_id o.output (parsedOf o)),
          y + specYesCount outputs, n + specNoCount outputs) := by
  induction outputs with
  | nil =>
      intro votes y n _
      simp [tallyLoop, specYesCount, specNoCount]
  | cons o rest ih =>
      intro votes y n h
      have ho : (parse_vote o.output).isOk = true := h o (by simp)
      obtain ⟨v, hv⟩ : ∃ v, parse_vote o.output = Except.ok v := by
        cases hpv : parse_vote o.output with
        | ok v => exact ⟨v, rfl⟩
        | error e => rw [hpv] at ho; simp [Except.isOk, Except.toBool] at ho
      have hrest : ∀ x ∈ rest, (parse_vote x.output).isOk = true :=
        fun x hx => h x (by simp [hx])
      have hparsed : parsedOf o = v := by simp [parsedOf, hv]
      have hyes : (parse_vote o.output == Except.ok VoteValue.yes) =
          (v == VoteValue.yes) := by rw [hv]; cases v <;> decide
      have hno : (parse_vote o.output == Except.ok VoteValue.no) =
          (v == VoteValue.no) := by rw [hv]; cases v <;> decide
      simp only [tallyLoop, hv, List.map_cons, hparsed]
      rw [specYesCount_cons, specNoCount_cons, hyes, hno]
      cases v with
      | yes =>
          simp only [show (VoteValue.yes == VoteValue.yes) = true from rfl,
            if_true]
          rw [ih _ (y + 1) n hrest]
          simp [List.append_assoc]
          omega
      | no =>
          simp only [show (VoteValue.no == VoteValue.yes) = false from rfl,
            show (VoteValue.no == VoteValue.no) = true from rfl,
            Bool.false_eq_true, if_false, if_true]
          rw [ih _ y (n + 1) hrest]
          simp [List.append_assoc]
          omega
      | invalid =>
          simp only [show (VoteValue.invalid == VoteValue.yes) = false from rfl,
            show (VoteValue.invalid == VoteValue.no) = false from rfl,
            Bool.false_eq_true, if_false]
          rw [ih _ y n hrest]
          simp [List.append_assoc]

theorem outcome_if_eq (yc nc : Nat) :
    (if yc > nc then RoundOutcome.yes else if nc > yc then RoundOutcome.no
      else if yc == nc && yc > 0 then RoundOutcome.tie else RoundOutcome.invalid) =
    (if yc > nc then RoundOutcome.yes else if nc > yc then RoundOutcome.no
      else if yc = nc ∧ 0 < yc then RoundOutcome.tie else RoundOutcome.invalid) := by
  by_cases h1 : yc > nc
  · simp [h1]
  · by_cases h2 : nc > yc
    · simp [h1, h2]
    · have heq : yc = nc := by omega
      by_cases h3 : 0 < yc
      · simp [h1, h2, heq, h3]
      · simp [h1, h2, heq, h3]

/-- C6 (confirmed): on any vote-phase output list whose raw texts all parse
without raising (the crash case is claim C10), `_tally_votes` returns one
`VoteResult` per output — in output order, carrying the output's raw text and
parsed vote, INVALID parses included — together with exactly the outcome the
spec prescribes: YES if yes-count > no-count, NO if no-count > yes-count, TIE
if the counts are equal and positive, INVALID if both are zero, where only
YES/NO parses count toward the tallies. -/
theorem c6_tally_refines_spec (outputs : List PhaseOutput)
    (h : ∀ o ∈ outputs, (parse_vote o.output).isOk = true) :
    tally_votes outputs =
      Except.ok
        (outputs.map (fun o => VoteResult.mk o.participant_id o.output (parsedOf o)),
          specTallyOutcome outputs) := by
  unfold tally_votes
  rw [tallyLoop_ok outputs [] 0 0 h]
  simp only [List.nil_append, Nat.zero_add]
  exact congrArg
    (fun oc => Except.ok
      (outputs.map (fun o => VoteResult.mk o.participant_id o.output (parsedOf o)), oc))
    (outcome_if_eq (specYesCount outputs) (specNoCount outputs))

/-- Witness for `c6_tally_refines_spec`: the four tallies named by the claim,
{YES,YES,NO} ⇒ YES, {YES,NO} ⇒ TIE, {INVALID,INVALID} ⇒ INVALID,
{YES,NO,NO} ⇒ NO. -/
theorem c6_tally_refines_spec_witness :
    tally_votes [⟨"ph-v", "p1", "YES"⟩, ⟨"ph-v", "p2", "YES"⟩, ⟨"ph-v", "p3", "NO"⟩] =
      Except.ok ([⟨"p1", "YES", VoteValue.yes⟩, ⟨"p2", "YES", VoteValue.yes⟩,
        ⟨"p3", "NO", VoteValue.no⟩], RoundOutcome.yes) ∧
    tally_votes [⟨"ph-v", "p1", "YES"⟩, ⟨"ph-v", "p2", "NO"⟩] =
      Except.ok ([⟨"p1", "YES", VoteValue.yes⟩, ⟨"p2", "NO", VoteValue.no⟩],
        RoundOutcome.tie) ∧
    tally_votes [⟨"ph-v", "p1", "maybe"⟩, ⟨"ph-v", "p2", "maybe"⟩] =
      Except.ok ([⟨"p1", "maybe", VoteValue.invalid⟩, ⟨"p2", "maybe", VoteValue.invalid⟩],
        RoundOutcome.invalid) ∧
    tally_votes [⟨"ph-v", "p1", "YES"⟩, ⟨"ph-v", "p2", "NO"⟩, ⟨"ph-v", "p3", "NO"⟩] =
      Except.ok ([⟨"p1", "YES", VoteValue.yes⟩, ⟨"p2", "NO", VoteValue.no⟩,
        ⟨"p3", "NO", VoteValue.no⟩], RoundOutcome.no) :=
  ⟨(c6_tally_refines_spec _ (by decide)).trans (by decide),
    (c6_tally_refines_spec _ (by decide)).trans (by decide),
    (c6_tally_refines_spec _ (by decide)).trans (by decide),
    (c6_tally_refines_spec _ (by decide)).trans (by decide)⟩

/-! ## Claim C9 -/

theorem run_one_fst (chat : Chat) (template : DebateTemplate) (phase : PhaseSpec)
    (run : DebateRun) (round_index : Nat) (p : Participant) :
    (run_one chat template phase run round_index p).1 = p := by
  simp only [run_one]
  cases chat p.model_id (build_messages template p.persona_prompt phase run round_index) <;> rfl

theorem execute_phase_outputs (chat : Chat) (template : DebateTemplate)
    (phase : PhaseSpec) (run : DebateRun) (round_index pos : Nat)
    (order : List Participant) :
    (execute_phase chat template phase run round_index pos order).2 =
      order.map (fun p => PhaseOutput.mk phase.id p.id
        (run_one chat template phase run round_index p).2) := by
  unfold execute_phase
  simp only [List.map_map]
  apply List.map_congr_left
  intro p _
  simp [Function.comp, run_one_fst]

/-- C9 (confirmed): one phase execution, with the fan-out completing in any
order that is a permutation of the roster, yields exactly one `PhaseOutput`
per roster participant (`length` and, for distinct participant ids, a count
of exactly one per participant); and a participant whose chat call raises
contributes the error-marker output `(error: <exc>)` instead of failing the
phase — `execute_phase` returns a plain output list, never an error, so the
failure cannot surface from the operation that triggered the phase. -/
theorem c9_phase_outputs_contained (chat : Chat) (template : DebateTemplate)
    (phase : PhaseSpec) (run : DebateRun) (round_index pos : Nat)
    (order : List Participant) (p : Participant) (e : String)
    (hperm : order.Perm template.participants)
    (hids : (template.participants.map Participant.id).Nodup)
    (hp : p ∈ template.participants) :
    (execute_phase chat template phase run round_index pos order).2.length =
      template.participants.length ∧
    ((execute_phase chat template phase run round_index pos order).2.filter
      (fun o => o.participant_id == p.id)).length = 1 ∧
    (chat p.model_id (build_messages template p.persona_prompt phase run round_index) =
        Except.error e →
      PhaseOutput.mk phase.id p.id ("(error: " ++ e ++ ")") ∈
        (execute_phase chat template phase run round_index pos order).2) := by
  rw [execute_phase_outputs]
  refine ⟨?_, ?_, ?_⟩
  · simp [hperm.length_eq]
  · rw [← List.countP_eq_length_filter, List.countP_map]
    have h1 : List.countP
        ((fun o => o.participant_id == p.id) ∘
          (fun q => PhaseOutput.mk phase.id q.id
            (run_one chat template phase run round_index q).2)) order =
        List.countP (fun q => q.id == p.id) order := rfl
    rw [h1, hperm.countP_eq]
    have h2 : List.countP (fun q => q.id == p.id) template.participants =
        List.count p.id (template.participants.map Participant.id) := by
      rw [List.count, List.countP_map]
      rfl
    rw [h2]
    exact List.count_eq_one_of_mem hids (List.mem_map_of_mem Participant.id hp)
  · intro hchat
    have hmem : p ∈ order := (hperm.mem_iff).mpr hp
    have hraw : (run_one chat template phase run round_index p).2 =
        "(error: " ++ e ++ ")" := by
      simp only [run_one]
      rw [hchat]
    rw [← hraw]
    exact List.mem_map_of_mem _ hmem

/-- Witness for `c9_phase_outputs_contained`: participant `p-b`'s chat call
raises `"boom"`; the phase still yields three outputs, exactly one of them
`p-b`'s, and `p-b`'s output is the error marker. -/
theorem c9_phase_outputs_contained_witness :
    (execute_phase (failingChat "model-b") tmplTwoByThree phaseOne
      sTwoByThree.run 1 0 roster).2.length = tmplTwoByThree.participants.length ∧
    ((execute_phase (failingChat "model-b") tmplTwoByThree phaseOne
      sTwoByThree.run 1 0 roster).2.filter
        (fun o => o.participant_id == pB.id)).length = 1 ∧
    PhaseOutput.mk phaseOne.id pB.id ("(error: " ++ "boom" ++ ")") ∈
      (execute_phase (failingChat "model-b") tmplTwoByThree phaseOne
        sTwoByThree.run 1 0 roster).2 := by
  have h := c9_phase_outputs_contained (failingChat "model-b") tmplTwoByThree
    phaseOne sTwoByThree.run 1 0 roster pB "boom"
    (by decide) (by decide) (by decide)
  exact ⟨h.1, h.2.1, h.2.2 (by decide)⟩

/-! ## Claim C7: helper lemmas

The claim relates `_parse_vote` (first line of the *stripped* text, a
marker `lstrip`, a final `strip`, the regex) to the spec's wording (first
non-empty line, strip leading markers and whitespace, match).  The two
pipelines differ syntactically; the lemmas below prove the cleaned lines
equal for every input that has a non-whitespace character. -/

theorem brk_imp_ws (c : Char) : isLineBreak c = true → pyIsWs c = true := by
  unfold isLineBreak pyIsWs
  generalize (c == '\n') = b1
  generalize (c == '\x0b') = b2
  generalize (c == '\x0c') = b3
  generalize (c == '\r') = b4
  generalize (c == ' ') = b5
  generalize (c == '\t') = b6
  revert b1 b2 b3 b4 b5 b6
  decide

theorem not_ws_not_brk (c : Char) : pyIsWs c = false → isLineBreak c = false := by
  unfold isLineBreak pyIsWs
  generalize (c == ' ') = b5
  generalize (c == '\t') = b6
  generalize (c == '\n') = b1
  generalize (c == '\x0b') = b2
  generalize (c == '\x0c') = b3
  generalize (c == '\r') = b4
  revert b1 b2 b3 b4 b5 b6
  decide

theorem ws_not_brk_marker (c : Char) :
    pyIsWs c = true → isLineBreak c = false → isMarkerChar c = true := by
  unfold isLineBreak pyIsWs isMarkerChar
  generalize (c == '-') = m1
  generalize (c == '*') = m2
  generalize (c == '•') = m3
  generalize (c == '>') = m4
  generalize (c == ' ') = b5
  generalize (c == '\t') = b6
  generalize (c == '\n') = b1
  generalize (c == '\x0b') = b2
  generalize (c == '\x0c') = b3
  generalize (c == '\r') = b4
  revert m1 m2 m3 m4 b1 b2 b3 b4 b5 b6
  decide

theorem marker_eq_bullet_or_ws (c : Char) :
    isLineBreak c = false → isMarkerChar c = (isBulletArrow c || pyIsWs c) := by
  unfold isLineBreak pyIsWs isMarkerChar isBulletArrow
  generalize (c == '-') = m1
  generalize (c == '*') = m2
  generalize (c == '•') = m3
  generalize (c == '>') = m4
  generalize (c == ' ') = b5
  generalize (c == '\t') = b6
  generalize (c == '\n') = b1
  generalize (c == '\x0b') = b2
  generalize (c == '\x0c') = b3
  generalize (c == '\r') = b4
  revert m1 m2 m3 m4 b1 b2 b3 b4 b5 b6
  decide

theorem dropWhile_append_all {α : Type} (p : α → Bool) (xs ys : List α)
    (h : ∀ a ∈ xs, p a = true) :
    List.dropWhile p (xs ++ ys) = List.dropWhile p ys := by
  induction xs with
  | nil => rfl
  | cons x xs ih =>
      rw [List.cons_append, List.dropWhile_cons_of_pos (h x (List.mem_cons_self x xs))]
      exact ih (fun a ha => h a (List.mem_cons_of_mem x ha))

theorem dropWhile_append_ne_nil {α : Type} (p : α → Bool) (xs ys : List α)
    (h : List.dropWhile p xs ≠ []) :
    List.dropWhile p (xs ++ ys) = List.dropWhile p xs ++ ys := by
  induction xs with
  | nil => simp [List.dropWhile] at h
  | cons x xs ih =>
      by_cases hx : p x
      · rw [List.cons_append, List.dropWhile_cons_of_pos hx,
          List.dropWhile_cons_of_pos hx]
        rw [List.dropWhile_cons_of_pos hx] at h
        exact ih h
      · rw [List.cons_append, List.dropWhile_cons_of_neg hx,
          List.dropWhile_cons_of_neg hx, List.cons_append]

theorem takeWhile_append_all {α : Type} (p : α → Bool) (xs ys : List α)
    (h : ∀ a ∈ xs, p a = true) :
    List.takeWhile p (xs ++ ys) = xs ++ List.takeWhile p ys := by
  induction xs with
  | nil => rfl
  | cons x xs ih =>
      rw [List.cons_append, List.takeWhile_cons_of_pos (h x (List.mem_cons_self x xs))]
      rw [ih (fun a ha => h a (List.mem_cons_of_mem x ha)), List.cons_append]

theorem takeWhile_append_stop {α : Type} (p : α → Bool) (xs ys : List α)
    (h : List.takeWhile p xs ≠ xs) :
    List.takeWhile p (xs ++ ys) = List.takeWhile p xs := by
  induction xs with
  | nil => simp at h
  | cons x xs ih =>
      by_cases hx : p x
      · rw [List.cons_append, List.takeWhile_cons_of_pos hx,
          List.takeWhile_cons_of_pos hx]
        rw [List.takeWhile_cons_of_pos hx] at h
        have h2 : List.takeWhile p xs ≠ xs := fun hc => h (by rw [hc])
        rw [ih h2]
      · rw [List.cons_append, List.takeWhile_cons_of_neg hx,
          List.takeWhile_cons_of_neg hx]

theorem rdrop_append_rtake {α : Type} (p : α → Bool) (l : List α) :
    List.rdropWhile p l ++ List.rtakeWhile p l = l := by
  unfold List.rdropWhile List.rtakeWhile
  rw [← List.reverse_append, List.takeWhile_append_dropWhile, List.reverse_reverse]

theorem rdropWhile_append_all {α : Type} (p : α → Bool) (xs ys : List α)
    (h : ∀ a ∈ ys, p a = true) :
    List.rdropWhile p (xs ++ ys) = List.rdropWhile p xs := by
  unfold List.rdropWhile
  rw [List.reverse_append]
  rw [dropWhile_append_all p ys.reverse xs.reverse (by simpa using h)]

theorem rdropWhile_append_left {α : Type} (p : α → Bool) (xs ys : List α)
    (h : List.rdropWhile p ys ≠ []) :
    List.rdropWhile p (xs ++ ys) = xs ++ List.rdropWhile p ys := by
  unfold List.rdropWhile at *
  rw [List.reverse_append]
  have h2 : List.dropWhile p ys.reverse ≠ [] := by
    intro hc
    rw [hc] at h
    exact h rfl
  rw [dropWhile_append_ne_nil p ys.reverse xs.reverse h2, List.reverse_append,
    List.reverse_reverse]

theorem rdropWhile_cons_neg {α : Type} (p : α → Bool) (c : α) (t : List α)
    (h : p c = false) :
    List.rdropWhile p (c :: t) = c :: List.rdropWhile p t := by
  have hct : c :: t = [c] ++ t := rfl
  by_cases ht : List.rdropWhile p t = []
  · have hall : ∀ a ∈ t, p a = true := List.rdropWhile_eq_nil_iff.mp ht
    rw [hct, rdropWhile_append_all p [c] t hall, ht]
    simp [List.rdropWhile, List.dropWhile, h]
  · rw [hct, rdropWhile_append_left p [c] t ht]
    rfl

theorem pyStrip_decompose (w : List Char) (c : Char) (t : List Char)
    (hw : ∀ a ∈ w, pyIsWs a = true) (hc : pyIsWs c = false) :
    pyStrip (w ++ c :: t) = c :: List.rdropWhile pyIsWs t := by
  unfold pyStrip
  have h1 : List.rdropWhile pyIsWs (c :: t) ≠ [] := by
    intro hnil
    have hall := List.rdropWhile_eq_nil_iff.mp hnil
    rw [hall c (List.mem_cons_self c t)] at hc
    exact absurd hc (by simp)
  rw [rdropWhile_append_left pyIsWs w (c :: t) h1, rdropWhile_cons_neg pyIsWs c t hc]
  rw [dropWhile_append_all pyIsWs w _ hw]
  rw [List.dropWhile_cons_of_neg (by simp [hc])]

theorem exists_content_decomp (l : List Char) (h : hasContent l = true) :
    ∃ w c t, l = w ++ c :: t ∧ (∀ a ∈ w, pyIsWs a = true) ∧ pyIsWs c = false ∧
      l.dropWhile pyIsWs = c :: t := by
  induction l with
  | nil => simp [hasContent] at h
  | cons x r ih =>
      by_cases hx : pyIsWs x
      · have hr : hasContent r = true := by
          simpa [hasContent, hx] using h
        obtain ⟨w, c, t, h1, h2, h3, h4⟩ := ih hr
        refine ⟨x :: w, c, t, by rw [List.cons_append, ← h1], ?_, h3, ?_⟩
        · intro a ha
          rcases List.mem_cons.mp ha with rfl | ha2
          · exact hx
          · exact h2 a ha2
        · rw [List.dropWhile_cons_of_pos hx, h4]
      · have hx2 : pyIsWs x = false := by simpa using hx
        exact ⟨[], x, r, rfl, by simp, hx2,
          by rw [List.dropWhile_cons_of_neg hx]⟩

theorem linesOf_ne_nil (l : List Char) : linesOf l ≠ [] := by
  cases l with
  | nil => simp [linesOf]
  | cons c r =>
      by_cases h : isLineBreak c
      · simp [linesOf, h]
      · simp only [linesOf, h, Bool.false_eq_true, if_false]
        cases hr : linesOf r <;> simp

theorem linesOf_cons_brk (c : Char) (r : List Char) (h : isLineBreak c = true) :
    linesOf (c :: r) = [] :: linesOf r := by
  simp [linesOf, h]

theorem linesOf_cons_nobrk (c : Char) (r : List Char) (h : isLineBreak c = false) :
    ∃ hd tl, linesOf r = hd :: tl ∧ linesOf (c :: r) = (c :: hd) :: tl := by
  cases hr : linesOf r with
  | nil => exact absurd hr (linesOf_ne_nil r)
  | cons hd tl => exact ⟨hd, tl, rfl, by simp [linesOf, h, hr]⟩

theorem linesOf_head (l : List Char) :
    ∃ rest, linesOf l = (l.takeWhile (fun c => !isLineBreak c)) :: rest := by
  induction l with
  | nil => exact ⟨[], rfl⟩
  | cons c r ih =>
      by_cases h : isLineBreak c
      · refine ⟨linesOf r, ?_⟩
        rw [linesOf_cons_brk c r h, List.takeWhile_cons_of_neg (by simp [h])]
      · have h2 : isLineBreak c = false := by simpa using h
        obtain ⟨hd, tl, h3, h4⟩ := linesOf_cons_nobrk c r h2
        obtain ⟨rest, hr⟩ := ih
        rw [hr] at h3
        injection h3 with h5 h6
        refine ⟨tl, ?_⟩
        rw [h4, List.takeWhile_cons_of_pos (by simp [h2]), ← h5]

theorem specFirstContentLine_decompose (l : List Char) :
    hasContent l = true →
    ∃ w2 c t,
      specFirstContentLine l =
        some (w2 ++ c :: List.takeWhile (fun x => !isLineBreak x) t) ∧
      (∀ a ∈ w2, pyIsWs a = true ∧ isLineBreak a = false) ∧
      pyIsWs c = false ∧
      l.dropWhile pyIsWs = c :: t := by
  induction l with
  | nil => intro h; simp [hasContent] at h
  | cons x r ih =>
      intro h
      by_cases hx : pyIsWs x
      · have hr : hasContent r = true := by simpa [hasContent, hx] using h
        obtain ⟨w2, c, t, h1, h2, h3, h4⟩ := ih hr
        by_cases hbx : isLineBreak x
        · refine ⟨w2, c, t, ?_, h2, h3, ?_⟩
          · unfold specFirstContentLine at h1 ⊢
            rw [linesOf_cons_brk x r hbx, List.find?_cons_of_neg _ (by simp [hasContent])]
            exact h1
          · rw [List.dropWhile_cons_of_pos hx, h4]
        · have hbx2 : isLineBreak x = false := by simpa using hbx
          obtain ⟨hd, tl, h5, h6⟩ := linesOf_cons_nobrk x r hbx2
          unfold specFirstContentLine at h1
          rw [h5] at h1
          by_cases hhd : hasContent hd
          · rw [List.find?_cons_of_pos _ hhd] at h1
            injection h1 with h7
            refine ⟨x :: w2, c, t, ?_, ?_, h3, ?_⟩
            · unfold specFirstContentLine
              rw [h6, List.find?_cons_of_pos _ (by simpa [hasContent, hx] using hhd)]
              rw [h7, List.cons_append]
            · intro a ha
              rcases List.mem_cons.mp ha with rfl | ha2
              · exact ⟨hx, hbx2⟩
              · exact h2 a ha2
            · rw [List.dropWhile_cons_of_pos hx, h4]
          · rw [List.find?_cons_of_neg _ hhd] at h1
            refine ⟨w2, c, t, ?_, h2, h3, ?_⟩
            · unfold specFirstContentLine
              rw [h6, List.find?_cons_of_neg _ (by simp [hasContent, hx]; simpa [hasContent] using hhd)]
              exact h1
            · rw [List.dropWhile_cons_of_pos hx, h4]
      · have hx2 : pyIsWs x = false := by simpa using hx
        have hbx : isLineBreak x = false := not_ws_not_brk x hx2
        obtain ⟨hd, tl, h5, h6⟩ := linesOf_cons_nobrk x r hbx
        obtain ⟨rest, hhead⟩ := linesOf_head r
        rw [hhead] at h5
        injection h5 with h7 h8
        refine ⟨[], x, r, ?_, by simp, hx2, by rw [List.dropWhile_cons_of_neg hx]⟩
        unfold specFirstContentLine
        rw [h6, List.find?_cons_of_pos _ (by simp [hasContent, hx2])]
        rw [List.nil_append, ← h7]

theorem dropWhile_congr_on {α : Type} (p q : α → Bool) (l : List α)
    (h : ∀ a ∈ l, p a = q a) : List.dropWhile p l = List.dropWhile q l := by
  induction l with
  | nil => rfl
  | cons x xs ih =>
      have hx := h x (List.mem_cons_self x xs)
      by_cases hp : p x
      · rw [List.dropWhile_cons_of_pos hp,
          List.dropWhile_cons_of_pos (show q x = true by rw [← hx]; exact hp)]
        exact ih (fun a ha => h a (List.mem_cons_of_mem x ha))
      · rw [List.dropWhile_cons_of_neg hp,
          List.dropWhile_cons_of_neg (by rw [← hx]; exact hp)]

theorem takeWhile_rdrop_trailing (t : List Char) :
    ∃ sfx,
      List.takeWhile (fun x => !isLineBreak x) t =
        List.takeWhile (fun x => !isLineBreak x) (List.rdropWhile pyIsWs t) ++ sfx ∧
      ∀ a ∈ sfx, pyIsWs a = true ∧ isLineBreak a = false := by
  have hsplit := rdrop_append_rtake pyIsWs t
  by_cases hall : List.takeWhile (fun x => !isLineBreak x) (List.rdropWhile pyIsWs t) =
      List.rdropWhile pyIsWs t
  · have hρall : ∀ a ∈ List.rdropWhile pyIsWs t, (!isLineBreak a) = true :=
      fun a ha => List.takeWhile_eq_self_iff.mp hall a ha
    refine ⟨List.takeWhile (fun x => !isLineBreak x) (List.rtakeWhile pyIsWs t), ?_, ?_⟩
    · conv_lhs => rw [← hsplit]
      rw [takeWhile_append_all _ _ _ hρall, hall]
    · intro a ha
      have h1 : a ∈ List.rtakeWhile pyIsWs t :=
        (List.takeWhile_prefix _).sublist.subset ha
      have h2 : pyIsWs a = true := List.mem_rtakeWhile_imp h1
      have h3 := List.mem_takeWhile_imp ha
      exact ⟨h2, by simpa using h3⟩
  · refine ⟨[], ?_, by simp⟩
    rw [List.append_nil]
    conv_lhs => rw [← hsplit]
    rw [takeWhile_append_stop _ _ _ hall]

theorem pyStrip_dropWhile_marker_trailing (q sfx : List Char)
    (h : ∀ a ∈ sfx, pyIsWs a = true ∧ isLineBreak a = false) :
    pyStrip (List.dropWhile isMarkerChar (q ++ sfx)) =
      pyStrip (List.dropWhile isMarkerChar q) := by
  by_cases hq : List.dropWhile isMarkerChar q = []
  · have hallq : ∀ a ∈ q, isMarkerChar a = true := List.dropWhile_eq_nil_iff.mp hq
    rw [dropWhile_append_all isMarkerChar q sfx hallq, hq]
    have hsfx : List.dropWhile isMarkerChar sfx = [] := by
      rw [List.dropWhile_eq_nil_iff]
      intro a ha
      exact ws_not_brk_marker a (h a ha).1 (h a ha).2
    rw [hsfx]
  · rw [dropWhile_append_ne_nil isMarkerChar q sfx hq]
    unfold pyStrip
    rw [rdropWhile_append_all pyIsWs _ sfx (fun a ha => (h a ha).1)]

theorem cleaned_eq (l : List Char) (h : hasContent l = true) :
    ∃ ln, specFirstContentLine l = some ln ∧
      specCleanLine ln =
        pyStrip (((pyStrip l).takeWhile
          (fun c => !isLineBreak c)).dropWhile isMarkerChar) := by
  obtain ⟨w, c, t, hl, hw, hc, hdw⟩ := exists_content_decomp l h
  obtain ⟨w2, c2, t2, h1, h2, h3, h4⟩ := specFirstContentLine_decompose l h
  rw [hdw] at h4
  injection h4 with hc2 ht2
  subst hc2
  subst ht2
  refine ⟨_, h1, ?_⟩
  have hps : pyStrip l = c :: List.rdropWhile pyIsWs t := by
    rw [hl]
    exact pyStrip_decompose w c t hw hc
  rw [hps]
  have hcb : isLineBreak c = false := not_ws_not_brk c hc
  rw [List.takeWhile_cons_of_pos (by simp [hcb])]
  unfold specCleanLine
  have hw2 : ∀ a ∈ w2, (fun x => isBulletArrow x || pyIsWs x) a = true := by
    intro a ha
    simp [(h2 a ha).1]
  rw [dropWhile_append_all _ w2 _ hw2]
  have hcongr : List.dropWhile (fun x => isBulletArrow x || pyIsWs x)
      (c :: List.takeWhile (fun x => !isLineBreak x) t) =
      List.dropWhile isMarkerChar
        (c :: List.takeWhile (fun x => !isLineBreak x) t) := by
    apply dropWhile_congr_on
    intro a ha
    have hab : isLineBreak a = false := by
      rcases List.mem_cons.mp ha with rfl | ha2
      · exact hcb
      · simpa using List.mem_takeWhile_imp ha2
    exact (marker_eq_bullet_or_ws a hab).symm
  rw [hcongr]
  obtain ⟨sfx, hsfx1, hsfx2⟩ := takeWhile_rdrop_trailing t
  rw [hsfx1]
  have hassoc : c :: (List.takeWhile (fun x => !isLineBreak x)
        (List.rdropWhile pyIsWs t) ++ sfx) =
      (c :: List.takeWhile (fun x => !isLineBreak x)
        (List.rdropWhile pyIsWs t)) ++ sfx := rfl
  rw [hassoc]
  exact pyStrip_dropWhile_marker_trailing _ sfx hsfx2

/-! ## Claim C7: matcher equivalence and main theorem -/

theorem wholeWordYesNo_eq : specWholeWordYesNo = yesNoToken := by
  funext l
  rfl

theorem specCDT_eq : specColonDashThenToken = voteAfterMarker := by
  funext l
  unfold specColonDashThenToken voteAfterMarker
  rw [wholeWordYesNo_eq]

theorem voteAfterMarker_v (l : List Char) : voteAfterMarker ('v' :: l) = none := rfl

theorem voteAfterMarker_m (l : List Char) : voteAfterMarker ('m' :: l) = none := rfl

theorem voteAfterMarker_i (l : List Char) : voteAfterMarker ('i' :: l) = none := rfl

/-- The regex's marker alternation (with its retry of the empty alternative)
equals the spec's "optional leading marker" reading: when a marker prefix
matched but the rest of the pattern fails, the empty-marker retry starts at
`v`/`m`/`i` and can never match `yes`/`no`, so the retry is redundant. -/
theorem voteRegexMatch_eq_spec (cl : List Char) :
    voteRegexMatch cl = specColonDashThenToken (specStripVoteMarker cl) := by
  unfold voteRegexMatch specStripVoteMarker
  rw [specCDT_eq]
  by_cases h1 : ['v', 'o', 't', 'e'].isPrefixOf cl
  · simp only [h1, if_true]
    obtain ⟨rest, hrest⟩ := List.isPrefixOf_iff_prefix.mp h1
    subst hrest
    cases hv : voteAfterMarker ((['v', 'o', 't', 'e'] ++ rest).drop 4) with
    | some v => simp [hv]
    | none => simp [hv, voteAfterMarker_v]
  · simp only [h1, Bool.false_eq_true, if_false]
    by_cases h2 : ['m', 'y', ' ', 'v', 'o', 't', 'e'].isPrefixOf cl
    · simp only [h2, if_true]
      obtain ⟨rest, hrest⟩ := List.isPrefixOf_iff_prefix.mp h2
      subst hrest
      cases hv : voteAfterMarker ((['m', 'y', ' ', 'v', 'o', 't', 'e'] ++ rest).drop 7) with
      | some v => simp [hv]
      | none => simp [hv, voteAfterMarker_m]
    · simp only [h2, Bool.false_eq_true, if_false]
      by_cases h3 : ['i', ' ', 'v', 'o', 't', 'e'].isPrefixOf cl
      · simp only [h3, if_true]
        obtain ⟨rest, hrest⟩ := List.isPrefixOf_iff_prefix.mp h3
        subst hrest
        cases hv : voteAfterMarker ((['i', ' ', 'v', 'o', 't', 'e'] ++ rest).drop 6) with
        | some v => simp [hv]
        | none => simp [hv, voteAfterMarker_i]
      · simp only [h3, Bool.false_eq_true, if_false]

theorem matchLine_eq (cl : List Char) :
    ((match voteRegexMatch cl with
      | some v => Except.ok v
      | none =>
          if ['y', 'e', 's'].isPrefixOf cl then Except.ok VoteValue.yes
          else if ['n', 'o'].isPrefixOf cl then Except.ok VoteValue.no
          else Except.ok VoteValue.invalid : Except String VoteValue)) =
      Except.ok (specHeuristicLine cl) := by
  unfold specHeuristicLine
  rw [voteRegexMatch_eq_spec]
  cases specColonDashThenToken (specStripVoteMarker cl) with
  | some v => rfl
  | none => split_ifs <;> rfl

/-- C7 (confirmed): for the empty text and for every raw text containing a
non-whitespace character (the remaining texts — non-empty, all-whitespace —
make `_parse_vote` raise; that is claim C10), `_parse_vote` returns exactly
the value of the spec's heuristic: take the first non-empty line, strip
leading bullet/arrow markers and surrounding whitespace, lower-case, match an
optional `vote`/`my vote`/`i vote` marker, an optional colon/dash and a
whole-word `yes`/`no`; failing that accept a bare `yes`/`no` prefix;
otherwise classify INVALID. -/
theorem c7_parse_vote_refines_spec (raw : String)
    (h : raw.data = [] ∨ hasContent raw.data = true) :
    parse_vote raw = Except.ok (specHeuristic raw) := by
  rcases h with hemp | hcont
  · unfold parse_vote specHeuristic specFirstContentLine
    rw [hemp]
    rfl
  · obtain ⟨ln, hln, hclean⟩ := cleaned_eq raw.data hcont
    obtain ⟨w, c, t, hl, hw, hc, hdw⟩ := exists_content_decomp raw.data hcont
    have hps : pyStrip raw.data = c :: List.rdropWhile pyIsWs t := by
      rw [hl]
      exact pyStrip_decompose w c t hw hc
    have hne : raw.data.isEmpty = false := by
      cases hd : raw.data with
      | nil => rw [hd] at hcont; simp [hasContent] at hcont
      | cons a r => rfl
    have hsne : (pyStrip raw.data).isEmpty = false := by rw [hps]; rfl
    have hrhs : specHeuristic raw =
        specHeuristicLine ((specCleanLine ln).map pyLower) := by
      unfold specHeuristic
      rw [hln]
    unfold parse_vote
    simp only [hne, Bool.false_eq_true, if_false, hsne]
    rw [hrhs, hclean]
    exact matchLine_eq _

/-- Witness for `c7_parse_vote_refines_spec`: the claim's five examples,
"Vote: YES" ⇒ YES, "- no, because X" ⇒ NO, "maybe" ⇒ INVALID, "" ⇒ INVALID,
"I vote yes" ⇒ YES. -/
theorem c7_parse_vote_refines_spec_witness :
    parse_vote "Vote: YES" = Except.ok VoteValue.yes ∧
    parse_vote "- no, because X" = Except.ok VoteValue.no ∧
    parse_vote "maybe" = Except.ok VoteValue.invalid ∧
    parse_vote "" = Except.ok VoteValue.invalid ∧
    parse_vote "I vote yes" = Except.ok VoteValue.yes :=
  ⟨(c7_parse_vote_refines_spec "Vote: YES" (Or.inr (by decide))).trans (by decide),
    (c7_parse_vote_refines_spec "- no, because X" (Or.inr (by decide))).trans (by decide),
    (c7_parse_vote_refines_spec "maybe" (Or.inr (by decide))).trans (by decide),
    (c7_parse_vote_refines_spec "" (Or.inl (by decide))).trans (by decide),
    (c7_parse_vote_refines_spec "I vote yes" (Or.inr (by decide))).trans (by decide)⟩
